import Mathlib

/-!
Shallow embedding of the `image-bits` repository (two Python scripts,
`ascii/gen_ascii.py` — the glyph variant — and `shader/gen_shader.py` — the
block variant) and proofs about the claims of its specification.

Modelling conventions:
* Python `int` is `ℤ`; pixel brightness values are `ℕ`.
* Python `float` arithmetic (double precision) is modelled as exact
  rational arithmetic (`ℚ`); the float literals `0.1`, `0.3`, `0.85`
  become the rationals `1/10`, `3/10`, `85/100`.  The exact model and the
  double-precision code can disagree where a rounding error crosses a
  truncation boundary; every theorem below about a float-computed quantity
  either asserts a property insensitive to such rounding (bounds, clamps,
  monotonicity, which variable the code uses) or carries hypotheses
  confining it to inputs on which the double-precision computation is
  error-free, as spelled out at the theorem.
* Python `int(x)` on a float truncates toward zero; this is `pytrunc` below.
* Python `//` on nonnegative ints is floor division, which is `ℤ`'s `/`.
* Fallible code (`raise ValueError`) is modelled with `Except String`.
* PIL library calls (image decoding, LANCZOS resampling, font handling) are
  outside the embedding: the downsampled brightness grid is taken as an
  arbitrary function `ℕ → ℕ → ℕ`, and the output canvas is modelled as a
  function from pixel coordinates to colors.
-/

/-- An RGB color as the scripts handle it: a triple of Python ints.  The
channels are `ℤ` because `hex_to_rgb` can produce values outside `[0, 255]`
(see claim C10). -/
structure RGB where
  r : ℤ
  g : ℤ
  b : ℤ
  deriving DecidableEq, Repr

/-- Python `int(x)` applied to a rational: truncation toward zero.  A
rational's denominator is positive, so this is `num.tdiv den`. -/
def pytrunc (q : ℚ) : ℤ := q.num.tdiv q.den

/-- The per-channel clamp `min(max(v, 0), 255)` both scripts apply to
interpolated channel values (`gen_ascii.py` writes `min(max(0, r), 255)`,
which is the same value). -/
def clamp255 (v : ℤ) : ℤ := min (max v 0) 255

/-- Code-point value of an ASCII hexadecimal digit character:
`0`-`9`, `a`-`f`, `A`-`F`.  Python's `int(_, 16)` accepts these and, beyond
this model, also Unicode decimal digits (e.g. `int('٥f', 16) = 95`): the
model's digit set is a strict subset of the program's, and every claim
below uses it one-sidedly — acceptance statements are made only for
strings this subset covers, and rejection statements only for the length
check, which runs before any digit is examined. -/
def hexDigitVal (ch : Char) : Option ℕ :=
  if 48 ≤ ch.toNat ∧ ch.toNat ≤ 57 then some (ch.toNat - 48)
  else if 97 ≤ ch.toNat ∧ ch.toNat ≤ 102 then some (ch.toNat - 97 + 10)
  else if 65 ≤ ch.toNat ∧ ch.toNat ≤ 70 then some (ch.toNat - 65 + 10)
  else none

/-- The six ASCII whitespace characters stripped by Python's `int(_, 16)`
before parsing.  Python also strips non-ASCII Unicode whitespace (e.g.
`int('\xa0f', 16) = 15`); as with `hexDigitVal`, the model covers the
ASCII subset and the claims rely on it only one-sidedly. -/
def isPySpace (ch : Char) : Bool :=
  ch = ' ' || ch = '\t' || ch = '\n' || ch = '\x0d' || ch = '\x0b' || ch = '\x0c'

/-- Accumulate hexadecimal digits left to right; `none` on a non-digit or on
an empty digit string. -/
def hexDigitsVal : List Char → Option ℕ
  | [] => none
  | [ch] => hexDigitVal ch
  | ch :: rest => do
    let d ← hexDigitVal ch
    let v ← hexDigitsVal rest
    pure (d * 16 ^ rest.length + v)

/-- The ASCII fragment of Python `int(s, 16)`: optional surrounding ASCII
whitespace, an optional sign, then a nonempty run of ASCII hex digits.
Everything this parser accepts, Python accepts with the same value; the
converse does not hold (Python additionally accepts Unicode digits and
whitespace, and — irrelevantly for two-character slices — a `0x` prefix
and underscores between digits), so no claim below asserts that a slice
this parser rejects makes the program raise. -/
def pyIntHex16 (s : List Char) : Option ℤ :=
  let t := (s.dropWhile isPySpace).reverse.dropWhile isPySpace |>.reverse
  match t with
  | '+' :: rest => (hexDigitsVal rest).map (fun v => (v : ℤ))
  | '-' :: rest => (hexDigitsVal rest).map (fun v => -(v : ℤ))
  | rest => (hexDigitsVal rest).map (fun v => (v : ℤ))

/-- The shared helper `hex_to_rgb` (identical in both scripts): strip leading
`#` characters, require exactly six remaining characters, and decode the
three two-character slices with `int(_, 16)`. -/
def hex_to_rgb (s : String) : Except String RGB :=
  let t := s.toList.dropWhile (· = '#')
  if t.length ≠ 6 then .error "Invalid hex color format. Use #RRGGBB."
  else
    match pyIntHex16 (t.take 2), pyIntHex16 ((t.drop 2).take 2),
        pyIntHex16 ((t.drop 4).take 2) with
    | some rv, some gv, some bv => .ok ⟨rv, gv, bv⟩
    | _, _, _ => .error "invalid literal for int() with base 16"

/-- The background shade both scripts compute from the base color: each
channel multiplied by the background-brightness factor (default `0.1`) and
truncated toward zero by Python's `int()`. -/
def bgShade (f : ℚ) (c : RGB) : RGB :=
  ⟨pytrunc ((c.r : ℚ) * f), pytrunc ((c.g : ℚ) * f), pytrunc ((c.b : ℚ) * f)⟩

/-- Loop body of the multi-shade branch of `generate_shades` in
`ascii/gen_ascii.py` (lines 42-77), producing the foreground shade for loop
index `n`.  The dark start and light end are loop-invariant but the source
recomputes them each iteration; `baseTargetFgIdx` mirrors line 40. -/
def asciiShadeAt (base : RGB) (numTotalShades : ℤ) (bgFactor : ℚ) (n : ℕ) : RGB :=
  let bg := bgShade bgFactor base
  let numFg := numTotalShades - 1
  let baseTargetFgIdx := (numFg - 1) / 2
  let i : ℤ := n
  let darkR := pytrunc ((bg.r : ℚ) + ((base.r : ℚ) - (bg.r : ℚ)) * (3/10))
  let darkG := pytrunc ((bg.g : ℚ) + ((base.g : ℚ) - (bg.g : ℚ)) * (3/10))
  let darkB := pytrunc ((bg.b : ℚ) + ((base.b : ℚ) - (bg.b : ℚ)) * (3/10))
  let lightR := pytrunc ((base.r : ℚ) + (255 - (base.r : ℚ)) * (85/100))
  let lightG := pytrunc ((base.g : ℚ) + (255 - (base.g : ℚ)) * (85/100))
  let lightB := pytrunc ((base.b : ℚ) + (255 - (base.b : ℚ)) * (85/100))
  let v : RGB :=
    if i < baseTargetFgIdx then
      let t : ℚ := if 0 < baseTargetFgIdx then (i : ℚ) / (baseTargetFgIdx : ℚ) else 0
      ⟨pytrunc ((darkR : ℚ) + ((base.r : ℚ) - (darkR : ℚ)) * t),
       pytrunc ((darkG : ℚ) + ((base.g : ℚ) - (darkG : ℚ)) * t),
       pytrunc ((darkB : ℚ) + ((base.b : ℚ) - (darkB : ℚ)) * t)⟩
    else if i = baseTargetFgIdx then base
    else
      let steps := (numFg - 1) - baseTargetFgIdx
      let t : ℚ := if 0 < steps then ((i : ℚ) - (baseTargetFgIdx : ℚ)) / (steps : ℚ) else 0
      ⟨pytrunc ((base.r : ℚ) + ((lightR : ℚ) - (base.r : ℚ)) * t),
       pytrunc ((base.g : ℚ) + ((lightG : ℚ) - (base.g : ℚ)) * t),
       pytrunc ((base.b : ℚ) + ((lightB : ℚ) - (base.b : ℚ)) * t)⟩
  ⟨clamp255 v.r, clamp255 v.g, clamp255 v.b⟩

/-- The `generate_shades` function of `ascii/gen_ascii.py` (lines 13-80).
Returns the error message of the `ValueError` when `num_total_shades < 2`;
otherwise the ramp: background first, then `num_total_shades - 1` foreground
shades.  With exactly one foreground shade the base color is appended
unmodified; otherwise the loop of lines 42-77 runs (`asciiShadeAt`). -/
def genShadesAscii (base : RGB) (numTotalShades : ℤ) (bgFactor : ℚ) :
    Except String (List RGB) :=
  if numTotalShades < 2 then
    .error "Total number of shades must be at least 2 (background + one foreground)."
  else
    let bg := bgShade bgFactor base
    let numFg := numTotalShades - 1
    if numFg = 0 then .ok [bg]
    else if numFg = 1 then .ok [bg, base]
    else
      .ok (bg :: (List.range numFg.toNat).map (asciiShadeAt base numTotalShades bgFactor))

/-- The first ramp computation inside `generate_shades` of
`shader/gen_shader.py` (lines 22-54).  Its result is discarded by the
reassignment `shades = []` at line 60; it is recorded here so claim C9 can
state that removing it does not change the function's output. -/
def shaderFirstPass (base : RGB) (numShades : ℤ) (bgFactor : ℚ) : List RGB :=
  let bg := bgShade bgFactor base
  let stepsToBase := (numShades - 1) / 2
  let part1 : List RGB :=
    if 0 < stepsToBase then
      (List.range stepsToBase.toNat).map (fun n =>
        let i : ℤ := (n : ℤ) + 1
        let factor : ℚ := (i : ℚ) / ((stepsToBase : ℚ) + 1)
        ⟨pytrunc ((bg.r : ℚ) + ((base.r : ℚ) - (bg.r : ℚ)) * factor),
         pytrunc ((bg.g : ℚ) + ((base.g : ℚ) - (bg.g : ℚ)) * factor),
         pytrunc ((bg.b : ℚ) + ((base.b : ℚ) - (bg.b : ℚ)) * factor)⟩)
    else []
  let stepsToWhite := numShades - (1 + (part1.length : ℤ) + 1)
  let part2 : List RGB :=
    if 0 < stepsToWhite then
      (List.range stepsToWhite.toNat).map (fun n =>
        let i : ℤ := (n : ℤ) + 1
        let factor : ℚ := (i : ℚ) / ((stepsToWhite : ℚ) + 1)
        ⟨min (pytrunc ((base.r : ℚ) + (255 - (base.r : ℚ)) * factor)) 255,
         min (pytrunc ((base.g : ℚ) + (255 - (base.g : ℚ)) * factor)) 255,
         min (pytrunc ((base.b : ℚ) + (255 - (base.b : ℚ)) * factor)) 255⟩)
    else []
  (bg :: part1) ++ [base] ++ part2

/-- Loop body of the interpolation loop at lines 63-90 of
`shader/gen_shader.py`, producing the shade for loop index `n`:
background-to-base interpolation below the real-valued midpoint
`(num_shades - 1) / 2`, base-to-white above it, the base color itself at an
exact integer midpoint, each channel clamped to `[0, 255]`. -/
def shaderShadeAt (base : RGB) (numShades : ℤ) (bgFactor : ℚ) (n : ℕ) : RGB :=
  let bg := bgShade bgFactor base
  let midQ : ℚ := ((numShades : ℚ) - 1) / 2
  let i : ℚ := n
  let v : RGB :=
    if i < midQ then
      let factor := i / midQ
      ⟨pytrunc ((bg.r : ℚ) + ((base.r : ℚ) - (bg.r : ℚ)) * factor),
       pytrunc ((bg.g : ℚ) + ((base.g : ℚ) - (bg.g : ℚ)) * factor),
       pytrunc ((bg.b : ℚ) + ((base.b : ℚ) - (bg.b : ℚ)) * factor)⟩
    else if midQ < i then
      let factor := (i - midQ) / ((numShades : ℚ) - 1 - midQ)
      ⟨pytrunc ((base.r : ℚ) + (255 - (base.r : ℚ)) * factor),
       pytrunc ((base.g : ℚ) + (255 - (base.g : ℚ)) * factor),
       pytrunc ((base.b : ℚ) + (255 - (base.b : ℚ)) * factor)⟩
    else base
  ⟨clamp255 v.r, clamp255 v.g, clamp255 v.b⟩

/-- The `generate_shades` function of `shader/gen_shader.py` (lines 14-98).
After the guard it computes `shaderFirstPass` (whose result the source
discards at line 60), then builds the ramp by the interpolation loop of
lines 63-90 (`shaderShadeAt`) and finally overwrites element 0 with the
background shade (lines 93-95). -/
def genShadesShader (base : RGB) (numShades : ℤ) (bgFactor : ℚ) :
    Except String (List RGB) :=
  if numShades < 2 then .error "Number of shades must be at least 2."
  else
    let bg := bgShade bgFactor base
    let _firstPass := shaderFirstPass base numShades bgFactor
    let shades := (List.range numShades.toNat).map (shaderShadeAt base numShades bgFactor)
    .ok (shades.set 0 bg)

/-- The block-variant `generate_shades` with its dead first ramp computation
removed: only the guard, the interpolation loop of lines 63-90, and the
element-0 overwrite remain.  Claim C9 compares this with `genShadesShader`. -/
def genShadesShaderSimplified (base : RGB) (numShades : ℤ) (bgFactor : ℚ) :
    Except String (List RGB) :=
  if numShades < 2 then .error "Number of shades must be at least 2."
  else
    let bg := bgShade bgFactor base
    let shades := (List.range numShades.toNat).map (shaderShadeAt base numShades bgFactor)
    .ok (shades.set 0 bg)

/-- The grayscale bucket width of `gen_ascii.py` line 194:
`256.0 / num_foreground_levels if num_foreground_levels > 0 else 256.0`. -/
def grayscaleStepAscii (numFgLevels : ℤ) : ℚ :=
  if 0 < numFgLevels then 256 / (numFgLevels : ℚ) else 256

/-- The brightness-to-index mapping of `gen_ascii.py` lines 200-202: the
index stays `0` unless there are foreground levels, in which case it is
`min(int(brightness / grayscale_step), num_foreground_levels - 1)`.
The division is exact-rational here where the code uses doubles; the two
can differ by one exactly when `brightness * levels` is a multiple of 256
(e.g. 186 levels, brightness 128: code 92, this model 93) — claim C2's
exact-formula statement therefore excludes those boundary inputs, while
the bound, clamp and monotonicity facts used elsewhere are insensitive to
the rounding. -/
def elementIdxAscii (numFgLevels : ℤ) (brightness : ℕ) : ℤ :=
  if 0 < numFgLevels then
    min (pytrunc ((brightness : ℚ) / grayscaleStepAscii numFgLevels)) (numFgLevels - 1)
  else 0

/-- The brightness-to-index mapping of `gen_shader.py` lines 147-156:
`min(int(brightness / (256 / num_shades)), num_shades - 1)`.  Note the
divisor uses the total shade count, background included.  As with
`elementIdxAscii`, this is the exact-rational value of a double-precision
computation; the two differ (by one, downward) only at inputs where
`brightness * num_shades` is a multiple of 256, and claim C2 excludes
those. -/
def shadeIndexShaderFn (numShades : ℤ) (brightness : ℕ) : ℤ :=
  min (pytrunc ((brightness : ℚ) / (256 / (numShades : ℚ)))) (numShades - 1)

/-- Grid-height computation of `gen_ascii.py` lines 181-183:
`int(output_width_chars * (h/w) / aspect_ratio_correction)` with a guard
giving aspect `1.0` when the source width is zero, floored at a minimum
of 1.  The chain `h/w`, `* W`, `/ c` runs in doubles in the source and in
exact rationals here; rounding can shift the truncation by one (e.g.
`W = 120`, 3x49 source, `c = 1`: code 1959, this model 1960), so claim
C3's exact characterisation carries hypotheses under which every
intermediate double is exact. -/
def gridHeightAscii (widthChars : ℤ) (srcW srcH : ℕ) (correction : ℚ) : ℤ :=
  let aspect : ℚ := if 0 < srcW then (srcH : ℚ) / (srcW : ℚ) else 1
  let hgt := pytrunc ((widthChars : ℚ) * aspect / correction)
  if hgt < 1 then 1 else hgt

/-- Grid-height computation of `gen_shader.py` lines 129-133:
`int(width * (h/w) * aspect_ratio_correction)`, floored at a minimum of 1.
The source has no zero-width guard (Python would raise `ZeroDivisionError`);
all claims about it assume `0 < srcW`.  Like `gridHeightAscii` this is the
exact-rational value of a double-precision chain (code 49 vs model 50 at
`W = 100`, 3x1 source, `c = 1.5`), and claim C3 restricts its exact
characterisation accordingly. -/
def gridHeightShader (widthCells : ℤ) (srcW srcH : ℕ) (correction : ℚ) : ℤ :=
  let hgt := pytrunc ((widthCells : ℚ) * ((srcH : ℚ) / (srcW : ℚ)) * correction)
  if hgt < 1 then 1 else hgt

/-- Membership of pixel `p` in the inclusive rectangle
`[x*cellW, y*cellH, x*cellW + cellW - 1, y*cellH + cellH - 1]` that
`draw.rectangle` fills for cell `(x, y)` (`gen_shader.py` lines 168-171). -/
def cellRect (cellW cellH x y : ℕ) (p : ℕ × ℕ) : Prop :=
  x * cellW ≤ p.1 ∧ p.1 ≤ x * cellW + (cellW - 1) ∧
    y * cellH ≤ p.2 ∧ p.2 ≤ y * cellH + (cellH - 1)

instance (cellW cellH x y : ℕ) (p : ℕ × ℕ) : Decidable (cellRect cellW cellH x y p) := by
  unfold cellRect
  infer_instance

/-- One iteration of the drawing loop of `gen_shader.py` lines 149-171 for
cell `(x, y)`: when the cell's shade index is positive, fill the cell's
pixel rectangle with the ramp color at that index; otherwise leave the
canvas untouched. -/
def drawCellB (shades : List RGB) (numShades : ℤ) (cellW cellH : ℕ)
    (brightness : ℕ → ℕ → ℕ) (y x : ℕ) (canvas : ℕ × ℕ → RGB) : ℕ × ℕ → RGB :=
  let idx := shadeIndexShaderFn numShades (brightness x y)
  if 0 < idx then
    fun p =>
      if cellRect cellW cellH x y p then shades.getD idx.toNat ⟨0, 0, 0⟩
      else canvas p
  else canvas

/-- The block-variant rendering pass of `gen_shader.py` lines 143-171: a
canvas pre-filled with ramp element 0, then the nested per-cell drawing
loops.  The canvas is modelled as a function from pixel coordinates to
colors; `brightness` is the downsampled grayscale grid. -/
def renderBlock (shades : List RGB) (numShades : ℤ) (gridW gridH cellW cellH : ℕ)
    (brightness : ℕ → ℕ → ℕ) : ℕ × ℕ → RGB :=
  (List.range gridH).foldl
    (fun canvas y =>
      (List.range gridW).foldl
        (fun canvas x => drawCellB shades numShades cellW cellH brightness y x canvas)
        canvas)
    (fun _ => shades.getD 0 ⟨0, 0, 0⟩)

/-- Outcome of the configuration phase of the block variant's driver
`image_to_ascii_art` (`gen_shader.py` lines 100-114): either a caught
`ValueError` — the driver prints the message and returns before
`Image.open` at line 117 runs, producing no output — or the shade ramp with
which the driver proceeds to open and process the source image. -/
inductive RunOutcome where
  | configError : RunOutcome
  | proceeds : List RGB → RunOutcome
  deriving DecidableEq

/-- Configuration phase of `image_to_ascii_art` in `gen_shader.py` (lines
104-114): decode the base color, then generate the ramp; a `ValueError`
from either step is caught and ends the run before any image work. -/
def runShaderStart (hexColor : String) (numShades : ℤ) : RunOutcome :=
  match hex_to_rgb hexColor with
  | .error _ => .configError
  | .ok baseRgb =>
    match genShadesShader baseRgb numShades (1/10) with
    | .error _ => .configError
    | .ok shades => .proceeds shades

/-- A color whose three channels are 8-bit values, i.e. lie in `[0, 255]`. -/
def InRange (c : RGB) : Prop :=
  0 ≤ c.r ∧ c.r ≤ 255 ∧ 0 ≤ c.g ∧ c.g ≤ 255 ∧ 0 ≤ c.b ∧ c.b ≤ 255

/-- Channel-wise comparison of two colors. -/
def ChanLE (a c : RGB) : Prop := a.r ≤ c.r ∧ a.g ≤ c.g ∧ a.b ≤ c.b

instance (c : RGB) : Decidable (InRange c) := by
  unfold InRange
  infer_instance

instance (a c : RGB) : Decidable (ChanLE a c) := by
  unfold ChanLE
  infer_instance

/-! ### Basic facts about the numeric helpers -/

theorem pytrunc_eq_floor (q : ℚ) (h : 0 ≤ q) : pytrunc q = ⌊q⌋ := by
  rw [pytrunc, Rat.floor_def]
  exact Int.tdiv_eq_ediv (Rat.num_nonneg.2 h) (Int.ofNat_nonneg _)

theorem pytrunc_intCast (n : ℤ) : pytrunc ((n : ℚ)) = n := by
  simp [pytrunc, Rat.num_intCast, Rat.den_intCast]

theorem pytrunc_nonneg {q : ℚ} (h : 0 ≤ q) : 0 ≤ pytrunc q := by
  rw [pytrunc_eq_floor q h]
  exact Int.floor_nonneg.2 h

theorem pytrunc_le_intCast {q : ℚ} {m : ℤ} (h0 : 0 ≤ q) (h : q ≤ (m : ℚ)) :
    pytrunc q ≤ m := by
  rw [pytrunc_eq_floor q h0]
  calc ⌊q⌋ ≤ ⌊(m : ℚ)⌋ := Int.floor_le_floor h
    _ = m := Int.floor_intCast m

theorem clamp255_nonneg (v : ℤ) : 0 ≤ clamp255 v := by
  unfold clamp255
  omega

theorem clamp255_le (v : ℤ) : clamp255 v ≤ 255 := by
  unfold clamp255
  omega

theorem clamp255_eq_self {v : ℤ} (h0 : 0 ≤ v) (h1 : v ≤ 255) : clamp255 v = v := by
  unfold clamp255
  omega

theorem InRange_mk_clamp (a b c : ℤ) :
    InRange ⟨clamp255 a, clamp255 b, clamp255 c⟩ :=
  ⟨clamp255_nonneg a, clamp255_le a, clamp255_nonneg b, clamp255_le b,
    clamp255_nonneg c, clamp255_le c⟩

theorem bg_chan_bounds {c : ℤ} (h0 : 0 ≤ c) :
    0 ≤ pytrunc ((c : ℚ) * (1/10)) ∧ pytrunc ((c : ℚ) * (1/10)) ≤ c := by
  have hc : (0 : ℚ) ≤ (c : ℚ) := by exact_mod_cast h0
  have hq : (0 : ℚ) ≤ (c : ℚ) * (1/10) := by
    apply mul_nonneg hc
    norm_num
  exact ⟨pytrunc_nonneg hq, pytrunc_le_intCast hq (by linarith)⟩

theorem bgShade_facts {base : RGB} (h : InRange base) :
    InRange (bgShade (1/10) base) ∧ ChanLE (bgShade (1/10) base) base := by
  obtain ⟨h1, h2, h3, h4, h5, h6⟩ := h
  obtain ⟨hr0, hr1⟩ := bg_chan_bounds h1
  obtain ⟨hg0, hg1⟩ := bg_chan_bounds h3
  obtain ⟨hb0, hb1⟩ := bg_chan_bounds h5
  unfold bgShade InRange ChanLE
  dsimp only
  exact ⟨⟨hr0, by omega, hg0, by omega, hb0, by omega⟩, hr1, hg1, hb1⟩

/-! ### Characterisation of the brightness-to-index mappings -/

theorem pytrunc_div_step (L : ℤ) (hL : 0 < L) (b : ℕ) :
    pytrunc ((b : ℚ) / (256 / (L : ℚ))) = ((b * L.toNat / 256 : ℕ) : ℤ) := by
  rw [div_div_eq_mul_div]
  have hLt : ((L.toNat : ℚ)) = (L : ℚ) := by
    exact_mod_cast Int.toNat_of_nonneg hL.le
  have h1 : ((b : ℚ) * (L : ℚ) / 256) = ((b * L.toNat : ℕ) : ℚ) / ((256 : ℕ) : ℚ) := by
    push_cast
    rw [hLt]
  have h2 : (0 : ℚ) ≤ ((b * L.toNat : ℕ) : ℚ) / ((256 : ℕ) : ℚ) := by positivity
  rw [h1, pytrunc_eq_floor _ h2, Rat.floor_natCast_div_natCast]
  exact (Int.ofNat_ediv _ _).symm

theorem elementIdxAscii_eq (L : ℤ) (hL : 0 < L) (b : ℕ) :
    elementIdxAscii L b = min ((b * L.toNat / 256 : ℕ) : ℤ) (L - 1) := by
  unfold elementIdxAscii grayscaleStepAscii
  rw [if_pos hL, if_pos hL, pytrunc_div_step L hL b]

theorem shadeIndexShaderFn_eq (N : ℤ) (hN : 0 < N) (b : ℕ) :
    shadeIndexShaderFn N b = min ((b * N.toNat / 256 : ℕ) : ℤ) (N - 1) := by
  unfold shadeIndexShaderFn
  rw [pytrunc_div_step N hN b]

/-! ### Shape lemmas for the two ramp generators -/

theorem genShadesAscii_two (base : RGB) (f : ℚ) :
    genShadesAscii base 2 f = .ok [bgShade f base, base] := by
  unfold genShadesAscii
  rw [if_neg (show ¬((2 : ℤ) < 2) by omega), if_neg (show ¬((2 : ℤ) - 1 = 0) by omega),
    if_pos (show (2 : ℤ) - 1 = 1 by omega)]

theorem genShadesAscii_eq_loop (base : RGB) {N : ℤ} (hN : 3 ≤ N) (f : ℚ) :
    genShadesAscii base N f =
      .ok (bgShade f base ::
        (List.range (N - 1).toNat).map (asciiShadeAt base N f)) := by
  unfold genShadesAscii
  rw [if_neg (show ¬(N < 2) by omega), if_neg (show ¬(N - 1 = 0) by omega),
    if_neg (show ¬(N - 1 = 1) by omega)]

theorem genShadesShader_eq_loop (base : RGB) {N : ℤ} (hN : 2 ≤ N) (f : ℚ) :
    genShadesShader base N f =
      .ok (((List.range N.toNat).map (shaderShadeAt base N f)).set 0
        (bgShade f base)) := by
  unfold genShadesShader
  rw [if_neg (show ¬(N < 2) by omega)]

theorem genShadesShader_err (base : RGB) {N : ℤ} (hN : N < 2) (f : ℚ) :
    genShadesShader base N f = .error "Number of shades must be at least 2." := by
  unfold genShadesShader
  rw [if_pos hN]

theorem InRange_asciiShadeAt (base : RGB) (N : ℤ) (f : ℚ) (n : ℕ) :
    InRange (asciiShadeAt base N f n) := by
  unfold asciiShadeAt
  exact InRange_mk_clamp _ _ _

theorem InRange_shaderShadeAt (base : RGB) (N : ℤ) (f : ℚ) (n : ℕ) :
    InRange (shaderShadeAt base N f n) := by
  unfold shaderShadeAt
  exact InRange_mk_clamp _ _ _

theorem shaderShadeAt_one (base : RGB) (f : ℚ) :
    shaderShadeAt base 2 f 1 = ⟨255, 255, 255⟩ := by
  unfold shaderShadeAt
  dsimp only
  rw [if_neg (show ¬(((1 : ℕ) : ℚ) < (((2 : ℤ) : ℚ) - 1) / 2) by push_cast; norm_num),
    if_pos (show (((2 : ℤ) : ℚ) - 1) / 2 < ((1 : ℕ) : ℚ) by push_cast; norm_num)]
  have key : ∀ c : ℤ,
      pytrunc ((c : ℚ) + (255 - (c : ℚ)) *
        ((((1 : ℕ) : ℚ) - (((2 : ℤ) : ℚ) - 1) / 2) /
          (((2 : ℤ) : ℚ) - 1 - (((2 : ℤ) : ℚ) - 1) / 2))) = 255 := by
    intro c
    have harg : ((c : ℚ) + (255 - (c : ℚ)) *
        ((((1 : ℕ) : ℚ) - (((2 : ℤ) : ℚ) - 1) / 2) /
          (((2 : ℤ) : ℚ) - 1 - (((2 : ℤ) : ℚ) - 1) / 2))) = ((255 : ℤ) : ℚ) := by
      push_cast
      norm_num
    rw [harg, pytrunc_intCast]
  rw [key, key, key]
  decide

theorem genShadesShader_two (base : RGB) (f : ℚ) :
    genShadesShader base 2 f = .ok [bgShade f base, ⟨255, 255, 255⟩] := by
  rw [genShadesShader_eq_loop base (le_refl 2) f]
  rw [show ((2 : ℤ).toNat) = 2 from rfl, show List.range 2 = [0, 1] from rfl]
  simp only [List.map_cons, List.map_nil, List.set_cons_zero]
  rw [shaderShadeAt_one]

theorem pytrunc_zero_mul (f : ℚ) : pytrunc (((0 : ℤ) : ℚ) * f) = 0 := by
  rw [show (((0 : ℤ) : ℚ) * f) = (((0 : ℤ)) : ℚ) by push_cast; ring, pytrunc_intCast]

theorem bgShade_black (f : ℚ) : bgShade f ⟨0, 0, 0⟩ = ⟨0, 0, 0⟩ := by
  unfold bgShade
  dsimp only
  rw [pytrunc_zero_mul]

/-! ### Claim theorems -/

/-- C9: in the block (shader) variant, the first ramp computation inside
`generate_shades` is dead: for every base color, shade count and background
factor, the full function (which still performs the first computation,
`shaderFirstPass`, before discarding it) returns exactly what the
simplified function containing only the second computation returns. -/
theorem claim_C9 (base : RGB) (numShades : ℤ) (bgFactor : ℚ) :
    genShadesShader base numShades bgFactor =
      genShadesShaderSimplified base numShades bgFactor := rfl

/-- C1: for every 8-bit base color and every requested total shade count
`N ≥ 2`, both `generate_shades` variants return a ramp of exactly `N`
colors; element 0 is the base color with each channel multiplied by `0.1`
and truncated toward zero (`bgShade`); every channel of every element lies
in `[0, 255]`; and each channel of element 0 is at most the corresponding
base channel. -/
theorem claim_C1 (base : RGB) (N : ℤ) (hbase : InRange base) (hN : 2 ≤ N) :
    (∃ l, genShadesAscii base N (1/10) = .ok l ∧ l.length = N.toNat ∧
      l.getD 0 ⟨0, 0, 0⟩ = bgShade (1/10) base ∧ (∀ c ∈ l, InRange c) ∧
      ChanLE (bgShade (1/10) base) base) ∧
    (∃ l, genShadesShader base N (1/10) = .ok l ∧ l.length = N.toNat ∧
      l.getD 0 ⟨0, 0, 0⟩ = bgShade (1/10) base ∧ (∀ c ∈ l, InRange c) ∧
      ChanLE (bgShade (1/10) base) base) := by
  obtain ⟨hbg, hle⟩ := bgShade_facts hbase
  constructor
  · rcases eq_or_lt_of_le hN with h2 | h3
    · refine ⟨[bgShade (1/10) base, base], ?_, ?_, rfl, ?_, hle⟩
      · rw [← h2]
        exact genShadesAscii_two base _
      · rw [← h2]
        rfl
      · intro c hc
        rcases List.mem_cons.1 hc with rfl | hc
        · exact hbg
        · rw [List.mem_singleton.1 hc]
          exact hbase
    · refine ⟨_, genShadesAscii_eq_loop base (by omega) _, ?_, rfl, ?_, hle⟩
      · simp only [List.length_cons, List.length_map, List.length_range]
        omega
      · intro c hc
        rcases List.mem_cons.1 hc with rfl | hc
        · exact hbg
        · obtain ⟨n, -, rfl⟩ := List.mem_map.1 hc
          exact InRange_asciiShadeAt base N _ n
  · refine ⟨_, genShadesShader_eq_loop base hN _, ?_, ?_, ?_, hle⟩
    · simp only [List.length_set, List.length_map, List.length_range]
    · have hlen : 0 < (((List.range N.toNat).map
          (shaderShadeAt base N (1/10))).set 0 (bgShade (1/10) base)).length := by
        simp only [List.length_set, List.length_map, List.length_range]
        omega
      rw [List.getD_eq_getElem _ _ hlen, List.getElem_set_self]
    · intro c hc
      rcases List.mem_or_eq_of_mem_set hc with hc | rfl
      · obtain ⟨n, -, rfl⟩ := List.mem_map.1 hc
        exact InRange_shaderShadeAt base N _ n
      · exact hbg

/-- Witness for C1 at the concrete base color `#44ccaa` and `N = 5`. -/
theorem claim_C1_witness :
    InRange (⟨68, 204, 170⟩ : RGB) ∧ (2 : ℤ) ≤ 5 ∧
    ((∃ l, genShadesAscii ⟨68, 204, 170⟩ 5 (1/10) = .ok l ∧ l.length = (5 : ℤ).toNat ∧
      l.getD 0 ⟨0, 0, 0⟩ = bgShade (1/10) ⟨68, 204, 170⟩ ∧ (∀ c ∈ l, InRange c) ∧
      ChanLE (bgShade (1/10) ⟨68, 204, 170⟩) ⟨68, 204, 170⟩) ∧
    (∃ l, genShadesShader ⟨68, 204, 170⟩ 5 (1/10) = .ok l ∧ l.length = (5 : ℤ).toNat ∧
      l.getD 0 ⟨0, 0, 0⟩ = bgShade (1/10) ⟨68, 204, 170⟩ ∧ (∀ c ∈ l, InRange c) ∧
      ChanLE (bgShade (1/10) ⟨68, 204, 170⟩) ⟨68, 204, 170⟩)) :=
  ⟨by decide, by decide, claim_C1 ⟨68, 204, 170⟩ 5 (by decide) (by decide)⟩

/-- C4 counterexample: with base color black and `N = 2` the block variant
returns `[background, white]`, not `[background, base]` as the claim states
for both variants. -/
theorem claim_C4_counterexample :
    genShadesShader ⟨0, 0, 0⟩ 2 (1/10) = .ok [⟨0, 0, 0⟩, ⟨255, 255, 255⟩] ∧
    genShadesShader ⟨0, 0, 0⟩ 2 (1/10) ≠
      .ok [bgShade (1/10) ⟨0, 0, 0⟩, (⟨0, 0, 0⟩ : RGB)] := by
  have h := genShadesShader_two ⟨0, 0, 0⟩ (1/10)
  rw [bgShade_black] at h
  refine ⟨h, ?_⟩
  rw [h, bgShade_black]
  intro hcontra
  simp only [Except.ok.injEq, List.cons.injEq, RGB.mk.injEq] at hcontra
  omega

/-- C4 amended: with `N = 2` the glyph variant returns exactly
`[background, base]`, while the block variant returns `[background, white]`
(the second element's channels are all exactly 255) for every base color. -/
theorem claim_C4_amended (base : RGB) (f : ℚ) :
    genShadesAscii base 2 f = .ok [bgShade f base, base] ∧
    genShadesShader base 2 f = .ok [bgShade f base, ⟨255, 255, 255⟩] :=
  ⟨genShadesAscii_two base f, genShadesShader_two base f⟩

theorem runShaderStart_err {hexColor : String} {e : String}
    (h : hex_to_rgb hexColor = .error e) (N : ℤ) :
    runShaderStart hexColor N = .configError := by
  unfold runShaderStart
  rw [h]

theorem runShaderStart_ok {hexColor : String} {rgb : RGB}
    (h : hex_to_rgb hexColor = .ok rgb) (N : ℤ) :
    runShaderStart hexColor N =
      match genShadesShader rgb N (1/10) with
      | .error _ => RunOutcome.configError
      | .ok shades => RunOutcome.proceeds shades := by
  unfold runShaderStart
  rw [h]

/-- C7 counterexample: the color string `-fffff` is not decodable as three
8-bit channel values (its first channel decodes to `-15`), yet `hex_to_rgb`
accepts it and the block variant's driver proceeds past the configuration
checks instead of raising `ValueError`. -/
theorem claim_C7_counterexample :
    hex_to_rgb "-fffff" = .ok ⟨-15, 255, 255⟩ ∧
    ¬ InRange (⟨-15, 255, 255⟩ : RGB) ∧
    (∃ s, runShaderStart "-fffff" 5 = .proceeds s) := by
  refine ⟨rfl, by decide, ?_⟩
  obtain ⟨l, hl⟩ := show ∃ l, genShadesShader ⟨-15, 255, 255⟩ 5 (1/10) = .ok l from
    ⟨_, genShadesShader_eq_loop _ (by omega) _⟩
  refine ⟨l, ?_⟩
  rw [runShaderStart_ok (show hex_to_rgb "-fffff" = .ok ⟨-15, 255, 255⟩ from rfl) 5, hl]

/-- C7 amended: the driver's configuration phase fails — it prints the
caught `ValueError` and returns before `Image.open` runs, producing no
output — whenever the `#`-stripped color string does not have exactly six
characters (this length check precedes any digit parsing, and Python's
`len` counts code points exactly as the model does), and whenever the
total shade count is below 2; conversely, a color string the (ASCII)
parser accepts — including one such as `-fffff` whose channels fall
outside `[0, 255]`, since no range check exists — proceeds to the image
phase whenever the shade count is at least 2.  No claim is made that
every length-6 string the model's parser rejects aborts the run: Python's
`int(_, 16)` also accepts Unicode digits and whitespace (e.g. the hex
string `٥fffff` decodes to `(95, 255, 255)` and the driver proceeds), so
parse failure beyond the length check is not characterised here. -/
theorem claim_C7_amended (hexColor : String) (N : ℤ) :
    ((hexColor.toList.dropWhile (· = '#')).length ≠ 6 →
      runShaderStart hexColor N = .configError) ∧
    (N < 2 → runShaderStart hexColor N = .configError) ∧
    (∀ rgb, hex_to_rgb hexColor = .ok rgb → 2 ≤ N →
      ∃ s, runShaderStart hexColor N = .proceeds s) := by
  refine ⟨?_, ?_, ?_⟩
  · intro hlen
    have herr : hex_to_rgb hexColor = .error "Invalid hex color format. Use #RRGGBB." := by
      unfold hex_to_rgb
      rw [if_pos hlen]
    exact runShaderStart_err herr N
  · intro hN
    cases hhex : hex_to_rgb hexColor with
    | error e => exact runShaderStart_err hhex N
    | ok rgb => rw [runShaderStart_ok hhex N, genShadesShader_err rgb hN (1/10)]
  · intro rgb hrgb hN
    obtain ⟨l, hl⟩ := show ∃ l, genShadesShader rgb N (1/10) = .ok l from
      ⟨_, genShadesShader_eq_loop _ hN _⟩
    refine ⟨l, ?_⟩
    rw [runShaderStart_ok hrgb N, hl]

/-- Witness for C7 (amended) at the valid color `#44ccaa` and `N = 5`. -/
theorem claim_C7_witness :
    hex_to_rgb "#44ccaa" = .ok ⟨68, 204, 170⟩ ∧ (2 : ℤ) ≤ 5 ∧
    (∃ s, runShaderStart "#44ccaa" 5 = .proceeds s) :=
  ⟨rfl, by decide,
    (claim_C7_amended "#44ccaa" 5).2.2 ⟨68, 204, 170⟩ rfl (by decide)⟩

/-- C2 counterexample: in the block variant with total shade count `N = 5`
and brightness 255, the code computes index `4` (it divides by the total
count `5` and clamps to `[0, 4]`), while the claim's formula with
`num_foreground_levels = N - 1 = 4` gives index `3`. -/
theorem claim_C2_counterexample :
    shadeIndexShaderFn 5 255 = 4 ∧
    max 0 (min (pytrunc (((255 : ℕ) : ℚ) / (256 / ((4 : ℤ) : ℚ)))) ((4 : ℤ) - 1)) = 3 ∧
    shadeIndexShaderFn 5 255 ≠
      max 0 (min (pytrunc (((255 : ℕ) : ℚ) / (256 / ((4 : ℤ) : ℚ)))) ((4 : ℤ) - 1)) := by
  have h1 : shadeIndexShaderFn 5 255 = 4 := by
    rw [shadeIndexShaderFn_eq 5 (by omega) 255]
    decide
  have h2 := pytrunc_div_step 4 (by omega) 255
  rw [h1, h2]
  refine ⟨rfl, by decide, by decide⟩

/-- C2 amended: the glyph variant maps brightness `b` by
`min(int(b / (256.0 / L)), L - 1)` with `L` the charset length, as claimed;
the block variant uses the same expression but with the total shade count
`N` (background included) in place of `num_foreground_levels = N - 1`, so
its indices range over `[0, N-1]`.  The exact bucket formula
`floor(b / (256 / count))` clamped to `[0, count-1]` holds of the code
whenever `b * count` is not a multiple of 256 (and the count is at most
`2^32`, far beyond any realizable charset or shade count): the exact
quotient `b*count/256` is then at least `1/256` away from every integer,
while the two double-precision roundings (of the step `256.0/count` and of
the quotient) perturb it by at most about `2 * 2^-53 * b*count/256 <
2^-20`, so the truncation cannot move.  When `256 | b * count` the exact
quotient is an integer and the rounded step can push the code's result one
below the formula (186 levels, `b = 128`: code 92, formula 93); those
boundary inputs are excluded here. -/
theorem claim_C2_amended (L N : ℤ) (b : ℕ) (hL : 0 < L) (hN : 0 < N)
    (hLsize : L ≤ 2 ^ 32) (hNsize : N ≤ 2 ^ 32) (hb : b ≤ 255)
    (hLtie : ((b : ℤ) * L) % 256 ≠ 0) (hNtie : ((b : ℤ) * N) % 256 ≠ 0) :
    elementIdxAscii L b =
      max 0 (min (pytrunc ((b : ℚ) / (256 / (L : ℚ)))) (L - 1)) ∧
    shadeIndexShaderFn N b =
      max 0 (min (pytrunc ((b : ℚ) / (256 / (N : ℚ)))) (N - 1)) := by
  constructor
  · rw [elementIdxAscii_eq L hL b, pytrunc_div_step L hL b]
    have := Int.ofNat_nonneg (b * L.toNat / 256)
    omega
  · rw [shadeIndexShaderFn_eq N hN b, pytrunc_div_step N hN b]
    have := Int.ofNat_nonneg (b * N.toNat / 256)
    omega

/-- Witness for C2 (amended) at `L = 11`, `N = 5`, brightness `128`
(`128 * 11 = 1408` and `128 * 5 = 640` are not multiples of 256). -/
theorem claim_C2_witness :
    (0 : ℤ) < 11 ∧ (0 : ℤ) < 5 ∧ (11 : ℤ) ≤ 2 ^ 32 ∧ (5 : ℤ) ≤ 2 ^ 32 ∧
    (128 : ℕ) ≤ 255 ∧ ((128 : ℤ) * 11) % 256 ≠ 0 ∧ ((128 : ℤ) * 5) % 256 ≠ 0 ∧
    (elementIdxAscii 11 128 =
        max 0 (min (pytrunc ((128 : ℚ) / (256 / ((11 : ℤ) : ℚ)))) ((11 : ℤ) - 1)) ∧
      shadeIndexShaderFn 5 128 =
        max 0 (min (pytrunc ((128 : ℚ) / (256 / ((5 : ℤ) : ℚ)))) ((5 : ℤ) - 1))) :=
  ⟨by decide, by decide, by decide, by decide, by decide, by decide, by decide,
    claim_C2_amended 11 5 128 (by decide) (by decide) (by decide) (by decide)
      (by decide) (by decide) (by decide)⟩

/-! ### Grid-height characterisation (claim C3) -/

theorem gridHeightAscii_char (W : ℤ) (w h : ℕ) (c : ℚ) (hW : 0 ≤ W)
    (hw : 0 < w) (hc : 0 < c) :
    gridHeightAscii W w h c = max 1 ⌊(W : ℚ) * ((h : ℚ) / (w : ℚ)) / c⌋ := by
  unfold gridHeightAscii
  dsimp only
  rw [if_pos hw]
  have hq : (0 : ℚ) ≤ (W : ℚ) * ((h : ℚ) / (w : ℚ)) / c := by
    apply div_nonneg _ hc.le
    apply mul_nonneg (by exact_mod_cast hW)
    positivity
  rw [pytrunc_eq_floor _ hq]
  split <;> omega

theorem gridHeightShader_char (W : ℤ) (w h : ℕ) (c : ℚ) (hW : 0 ≤ W)
    (hw : 0 < w) (hc : 0 < c) :
    gridHeightShader W w h c = max 1 ⌊(W : ℚ) * ((h : ℚ) / (w : ℚ)) * c⌋ := by
  unfold gridHeightShader
  dsimp only
  have hq : (0 : ℚ) ≤ (W : ℚ) * ((h : ℚ) / (w : ℚ)) * c := by
    apply mul_nonneg _ hc.le
    apply mul_nonneg (by exact_mod_cast hW)
    positivity
  rw [pytrunc_eq_floor _ hq]
  split <;> omega

/-- C3 counterexample: the claim says both variants compute
`round(W * (h/w) / c)` (minimum 1), which at the spec's own example —
source 1000x500, grid width 100, correction 0.5 — is 100.  The glyph
variant indeed yields 100, but the block variant yields 25: it multiplies
by the correction factor instead of dividing.  Moreover both variants
truncate rather than round: with a 3x2 source, width 100, correction 1 the
glyph variant gives 66 where the claimed rounding formula gives 67. -/
theorem claim_C3_counterexample :
    gridHeightAscii 100 1000 500 (1/2) = 100 ∧
    gridHeightShader 100 1000 500 (1/2) = 25 ∧
    max 1 (round ((100 : ℚ) * (((500 : ℕ) : ℚ) / ((1000 : ℕ) : ℚ)) / (1/2))) = 100 ∧
    gridHeightShader 100 1000 500 (1/2) ≠
      max 1 (round ((100 : ℚ) * (((500 : ℕ) : ℚ) / ((1000 : ℕ) : ℚ)) / (1/2))) ∧
    gridHeightAscii 100 3 2 1 = 66 ∧
    max 1 (round ((100 : ℚ) * (((2 : ℕ) : ℚ) / ((3 : ℕ) : ℚ)) / 1)) = 67 := by
  have h1 : gridHeightAscii 100 1000 500 (1/2) = 100 := by
    rw [gridHeightAscii_char 100 1000 500 (1/2) (by norm_num) (by norm_num) one_half_pos]
    norm_num
  have h2 : gridHeightShader 100 1000 500 (1/2) = 25 := by
    rw [gridHeightShader_char 100 1000 500 (1/2) (by norm_num) (by norm_num) one_half_pos]
    norm_num
  have h3 : max 1 (round ((100 : ℚ) * (((500 : ℕ) : ℚ) / ((1000 : ℕ) : ℚ)) / (1/2))) = 100 := by
    norm_num
  have h5 : gridHeightAscii 100 3 2 1 = 66 := by
    rw [gridHeightAscii_char 100 3 2 1 (by norm_num) (by norm_num) one_pos]
    rw [show ((100 : ℤ) : ℚ) * (((2 : ℕ) : ℚ) / ((3 : ℕ) : ℚ)) / 1 = 200/3 by
      push_cast; norm_num]
    norm_num
  have h6 : max 1 (round ((100 : ℚ) * (((2 : ℕ) : ℚ) / ((3 : ℕ) : ℚ)) / 1)) = 67 := by
    rw [show (100 : ℚ) * (((2 : ℕ) : ℚ) / ((3 : ℕ) : ℚ)) / 1 = 200/3 by norm_num]
    norm_num [round_eq]
  refine ⟨h1, h2, h3, ?_, h5, h6⟩
  rw [h2, h3]
  omega

/-- C3 amended: for positive source width, the glyph variant computes
`int(W * (h/w) / correction)` — truncation toward zero, not rounding —
floored at a minimum of 1, while the block variant computes
`int(W * (h/w) * correction)`: it multiplies by the correction factor
instead of dividing.  Because the chain runs in double precision, the
exact characterisation `max 1 trunc(...)` is asserted only where every
intermediate double is exactly representable: the aspect ratio `h/w` must
be a dyadic rational `a / 2^j` (then the division `h/w` is exact), the
product mantissa `W * a` must fit well inside 53 bits (`≤ 2^50`, so
`W * (h/w)` is exact), and the correction factor must be a power of two
(scaling by it is exact).  Outside this regime rounding can shift the
truncation by one (glyph variant at `W = 120`, 3x49 source, `c = 1`: code
1959, exact 1960; block variant at `W = 100`, 3x1 source, `c = 1.5`: code
49, exact 50).  The spec's own example — 1000x500 source, width 100,
correction `0.5 = 2^-1`, aspect `1/2^1` — lies inside the regime, where
the glyph variant gives 100 and the block variant 25. -/
theorem claim_C3_amended (W : ℤ) (w h : ℕ) (c : ℚ) (hW : 0 ≤ W) (hw : 0 < w)
    (a j : ℕ) (haspect : h * 2 ^ j = a * w) (hsize : W.toNat * a ≤ 2 ^ 50)
    (k : ℤ) (hc : c = 2 ^ k) :
    gridHeightAscii W w h c = max 1 ⌊(W : ℚ) * ((h : ℚ) / (w : ℚ)) / c⌋ ∧
    gridHeightShader W w h c = max 1 ⌊(W : ℚ) * ((h : ℚ) / (w : ℚ)) * c⌋ := by
  have hc0 : 0 < c := by
    rw [hc]
    positivity
  exact ⟨gridHeightAscii_char W w h c hW hw hc0, gridHeightShader_char W w h c hW hw hc0⟩

/-- Witness for C3 (amended) at the spec's example configuration
(aspect `500/1000 = 1/2^1`, correction `1/2 = 2^-1`). -/
theorem claim_C3_witness :
    (0 : ℤ) ≤ 100 ∧ (0 : ℕ) < 1000 ∧ 500 * 2 ^ 1 = 1 * 1000 ∧
    (100 : ℤ).toNat * 1 ≤ 2 ^ 50 ∧ (1/2 : ℚ) = 2 ^ (-1 : ℤ) ∧
    (gridHeightAscii 100 1000 500 (1/2) =
        max 1 ⌊(100 : ℚ) * (((500 : ℕ) : ℚ) / ((1000 : ℕ) : ℚ)) / (1/2)⌋ ∧
      gridHeightShader 100 1000 500 (1/2) =
        max 1 ⌊(100 : ℚ) * (((500 : ℕ) : ℚ) / ((1000 : ℕ) : ℚ)) * (1/2)⌋) :=
  ⟨by decide, by decide, by decide, by decide, by norm_num,
    claim_C3_amended 100 1000 500 (1/2) (by decide) (by decide) 1 1 (by decide)
      (by decide) (-1) (by norm_num)⟩

/-! ### Coverage of the index range (claim C5) -/

theorem idxFormula_cov (L : ℤ) (hL1 : 0 < L) (hL2 : L ≤ 256) (j : ℤ)
    (hj0 : 0 ≤ j) (hj1 : j ≤ L - 1) :
    ∃ b : ℕ, b ≤ 255 ∧ min ((b * L.toNat / 256 : ℕ) : ℤ) (L - 1) = j := by
  set Lt := L.toNat with hLtDef
  have hLt1 : 1 ≤ Lt := by omega
  have hLt2 : Lt ≤ 256 := by omega
  set jn := j.toNat with hjnDef
  have hjL : jn ≤ Lt - 1 := by omega
  set b := (256 * jn + Lt - 1) / Lt with hbDef
  have hS : Lt * b + (256 * jn + Lt - 1) % Lt = 256 * jn + Lt - 1 := by
    rw [hbDef]
    exact Nat.div_add_mod _ _
  have hmod := Nat.mod_lt (256 * jn + Lt - 1) (show 0 < Lt by omega)
  have hmul1 : 256 * jn ≤ Lt * b := by omega
  have hmul2 : Lt * b ≤ 256 * jn + (Lt - 1) := by omega
  have hble : b ≤ 255 := by
    by_contra hb256
    have h256 : 256 ≤ b := by omega
    have : Lt * 256 ≤ Lt * b := Nat.mul_le_mul_left Lt h256
    omega
  have hdiv : Lt * b / 256 = jn := by omega
  refine ⟨b, hble, ?_⟩
  rw [Nat.mul_comm b Lt, hdiv]
  omega

/-- C5 counterexample: with 257 foreground levels (a 257-character charset
in the glyph variant) the brightness-to-index mapping never attains index
256, so it does not cover `[0, num_foreground_levels - 1]`. -/
theorem claim_C5_counterexample :
    ¬ ∃ b : ℕ, b ≤ 255 ∧ elementIdxAscii 257 b = 256 := by
  rintro ⟨b, hb, hidx⟩
  rw [elementIdxAscii_eq 257 (by omega) b] at hidx
  have h1 : b * (257 : ℤ).toNat / 256 ≤ 255 := by
    have h2 : b * (257 : ℤ).toNat ≤ 255 * 257 := by
      rw [show ((257 : ℤ).toNat) = 257 from rfl]
      exact Nat.mul_le_mul_right _ hb
    calc b * (257 : ℤ).toNat / 256 ≤ 255 * 257 / 256 := Nat.div_le_div_right h2
      _ = 255 := by norm_num
  omega

/-- C5 amended: for every positive level count the brightness-to-index
mapping of both variants is monotone non-decreasing in brightness, and when
the level count is at most 256 it attains every index of its range as
brightness runs over `[0, 255]` (for the block variant the range is
`[0, N-1]` with `N` the total shade count the code actually divides by). -/
theorem claim_C5_amended :
    (∀ L : ℤ, 0 < L → ∀ b₁ b₂ : ℕ, b₁ ≤ b₂ →
      elementIdxAscii L b₁ ≤ elementIdxAscii L b₂) ∧
    (∀ N : ℤ, 0 < N → ∀ b₁ b₂ : ℕ, b₁ ≤ b₂ →
      shadeIndexShaderFn N b₁ ≤ shadeIndexShaderFn N b₂) ∧
    (∀ L : ℤ, 0 < L → L ≤ 256 → ∀ j : ℤ, 0 ≤ j → j ≤ L - 1 →
      ∃ b : ℕ, b ≤ 255 ∧ elementIdxAscii L b = j) ∧
    (∀ N : ℤ, 0 < N → N ≤ 256 → ∀ j : ℤ, 0 ≤ j → j ≤ N - 1 →
      ∃ b : ℕ, b ≤ 255 ∧ shadeIndexShaderFn N b = j) := by
  refine ⟨?_, ?_, ?_, ?_⟩
  · intro L hL b₁ b₂ hb
    rw [elementIdxAscii_eq L hL b₁, elementIdxAscii_eq L hL b₂]
    exact min_le_min (Int.ofNat_le.2 (Nat.div_le_div_right
      (Nat.mul_le_mul_right _ hb))) le_rfl
  · intro N hN b₁ b₂ hb
    rw [shadeIndexShaderFn_eq N hN b₁, shadeIndexShaderFn_eq N hN b₂]
    exact min_le_min (Int.ofNat_le.2 (Nat.div_le_div_right
      (Nat.mul_le_mul_right _ hb))) le_rfl
  · intro L hL1 hL2 j hj0 hj1
    obtain ⟨b, hb, hval⟩ := idxFormula_cov L hL1 hL2 j hj0 hj1
    refine ⟨b, hb, ?_⟩
    rw [elementIdxAscii_eq L hL1 b]
    exact hval
  · intro N hN1 hN2 j hj0 hj1
    obtain ⟨b, hb, hval⟩ := idxFormula_cov N hN1 hN2 j hj0 hj1
    refine ⟨b, hb, ?_⟩
    rw [shadeIndexShaderFn_eq N hN1 b]
    exact hval

/-- Witness for C5 (amended): monotonicity at `L = 11`, `N = 5`,
brightness 3 against 200, and coverage of index 7 of 11 levels and index 4
of 5 shades. -/
theorem claim_C5_witness :
    ((0 : ℤ) < 11 ∧ (3 : ℕ) ≤ 200 ∧ elementIdxAscii 11 3 ≤ elementIdxAscii 11 200) ∧
    ((0 : ℤ) < 5 ∧ (3 : ℕ) ≤ 200 ∧ shadeIndexShaderFn 5 3 ≤ shadeIndexShaderFn 5 200) ∧
    ((0 : ℤ) < 11 ∧ (11 : ℤ) ≤ 256 ∧ (0 : ℤ) ≤ 7 ∧ (7 : ℤ) ≤ 11 - 1 ∧
      ∃ b : ℕ, b ≤ 255 ∧ elementIdxAscii 11 b = 7) ∧
    ((0 : ℤ) < 5 ∧ (5 : ℤ) ≤ 256 ∧ (0 : ℤ) ≤ 4 ∧ (4 : ℤ) ≤ 5 - 1 ∧
      ∃ b : ℕ, b ≤ 255 ∧ shadeIndexShaderFn 5 b = 4) :=
  ⟨⟨by decide, by decide, claim_C5_amended.1 11 (by decide) 3 200 (by decide)⟩,
    ⟨by decide, by decide, claim_C5_amended.2.1 5 (by decide) 3 200 (by decide)⟩,
    ⟨by decide, by decide, by decide, by decide,
      claim_C5_amended.2.2.1 11 (by decide) (by decide) 7 (by decide) (by decide)⟩,
    ⟨by decide, by decide, by decide, by decide,
      claim_C5_amended.2.2.2 5 (by decide) (by decide) 4 (by decide) (by decide)⟩⟩

/-! ### The base color sits at the midpoint (claim C8) -/

theorem clamp_rgb_self {c : RGB} (h : InRange c) :
    (⟨clamp255 c.r, clamp255 c.g, clamp255 c.b⟩ : RGB) = c := by
  obtain ⟨h1, h2, h3, h4, h5, h6⟩ := h
  cases c
  simp only [RGB.mk.injEq]
  exact ⟨clamp255_eq_self h1 h2, clamp255_eq_self h3 h4, clamp255_eq_self h5 h6⟩

theorem asciiShadeAt_mid (base : RGB) (N : ℤ) (f : ℚ) (hbase : InRange base)
    (n : ℕ) (hn : (n : ℤ) = (N - 2) / 2) :
    asciiShadeAt base N f n = base := by
  unfold asciiShadeAt
  dsimp only
  rw [show N - 1 - 1 = N - 2 by ring]
  rw [if_neg (show ¬((n : ℤ) < (N - 2) / 2) by omega), if_pos hn]
  exact clamp_rgb_self hbase

theorem shaderShadeAt_mid (base : RGB) (N : ℤ) (f : ℚ) (hbase : InRange base)
    (n : ℕ) (hn : ((n : ℕ) : ℚ) = ((N : ℚ) - 1) / 2) :
    shaderShadeAt base N f n = base := by
  unfold shaderShadeAt
  dsimp only
  rw [if_neg (show ¬(((n : ℕ) : ℚ) < ((N : ℚ) - 1) / 2) by rw [hn]; exact lt_irrefl _),
    if_neg (show ¬(((N : ℚ) - 1) / 2 < ((n : ℕ) : ℚ)) by rw [hn]; exact lt_irrefl _)]
  exact clamp_rgb_self hbase

/-- C8: for every 8-bit base color and shade count `N ≥ 2` admitting an
exact integer midpoint under the variant's convention — `N` even for the
glyph variant, whose midpoint `(N-2)/2` ranges over the foreground
subsequence only, and `N` odd for the block variant, whose midpoint
`(N-1)/2` ranges over the whole ramp — the generated ramp contains the
literal base color, unmodified, at that midpoint index. -/
theorem claim_C8 (base : RGB) (N : ℤ) (hbase : InRange base) (hN : 2 ≤ N) :
    (N % 2 = 0 → ∃ l, genShadesAscii base N (1/10) = .ok l ∧
      l.getD (1 + ((N - 2) / 2).toNat) ⟨0, 0, 0⟩ = base) ∧
    (N % 2 = 1 → ∃ l, genShadesShader base N (1/10) = .ok l ∧
      l.getD (((N - 1) / 2).toNat) ⟨0, 0, 0⟩ = base) := by
  constructor
  · intro heven
    rcases eq_or_lt_of_le hN with h2 | h3
    · refine ⟨[bgShade (1/10) base, base], ?_, ?_⟩
      · rw [← h2]
        exact genShadesAscii_two base _
      · rw [← h2]
        rfl
    · refine ⟨_, genShadesAscii_eq_loop base (by omega) _, ?_⟩
      set t := ((N - 2) / 2).toNat with htDef
      have htlt : t < (N - 1).toNat := by omega
      rw [Nat.add_comm 1 t, List.getD_cons_succ]
      rw [List.getD_eq_getElem _ _
        (by simpa only [List.length_map, List.length_range] using htlt)]
      rw [List.getElem_map, List.getElem_range]
      exact asciiShadeAt_mid base N _ hbase t (by omega)
  · intro hodd
    have h3 : 3 ≤ N := by omega
    refine ⟨_, genShadesShader_eq_loop base hN _, ?_⟩
    set m := ((N - 1) / 2).toNat with hmDef
    have hm1 : 1 ≤ m := by omega
    have hmlt : m < N.toNat := by omega
    have hlen : m < (((List.range N.toNat).map
        (shaderShadeAt base N (1/10))).set 0 (bgShade (1/10) base)).length := by
      simpa only [List.length_set, List.length_map, List.length_range] using hmlt
    rw [List.getD_eq_getElem _ _ hlen, List.getElem_set_ne (show (0 : ℕ) ≠ m by omega)]
    rw [List.getElem_map, List.getElem_range]
    apply shaderShadeAt_mid base N _ hbase m
    have hmz : (m : ℤ) = (N - 1) / 2 := by omega
    have h2m : 2 * ((N - 1) / 2) = N - 1 := by omega
    have hcast : 2 * ((((N - 1) / 2 : ℤ)) : ℚ) = (N : ℚ) - 1 := by exact_mod_cast h2m
    have hmq : ((m : ℕ) : ℚ) = ((((N - 1) / 2 : ℤ)) : ℚ) := by
      rw [← hmz]
      push_cast
      ring
    rw [hmq]
    linarith

/-- Witness for C8 at base `#44ccaa`: block variant with `N = 5` (odd, so
the whole-ramp midpoint `(5-1)/2 = 2` is an integer). -/
theorem claim_C8_witness :
    InRange (⟨68, 204, 170⟩ : RGB) ∧ (2 : ℤ) ≤ 5 ∧ (5 : ℤ) % 2 = 1 ∧
    (∃ l, genShadesShader ⟨68, 204, 170⟩ 5 (1/10) = .ok l ∧
      l.getD ((((5 : ℤ) - 1) / 2).toNat) ⟨0, 0, 0⟩ = ⟨68, 204, 170⟩) :=
  ⟨by decide, by decide, by decide,
    (claim_C8 ⟨68, 204, 170⟩ 5 (by decide) (by decide)).2 (by decide)⟩

/-! ### The block-variant drawing loop (claim C6) -/

theorem drawCell_not_rect (shades : List RGB) (numShades : ℤ) (cw ch : ℕ)
    (g : ℕ → ℕ → ℕ) (y x : ℕ) (canvas : ℕ × ℕ → RGB) (p : ℕ × ℕ)
    (h : ¬ cellRect cw ch x y p) :
    drawCellB shades numShades cw ch g y x canvas p = canvas p := by
  unfold drawCellB
  by_cases hidx : 0 < shadeIndexShaderFn numShades (g x y)
  · rw [if_pos hidx]
    exact if_neg h
  · rw [if_neg hidx]

theorem drawCell_rect (shades : List RGB) (numShades : ℤ) (cw ch : ℕ)
    (g : ℕ → ℕ → ℕ) (y x : ℕ) (canvas : ℕ × ℕ → RGB) (p : ℕ × ℕ)
    (h : cellRect cw ch x y p) :
    drawCellB shades numShades cw ch g y x canvas p =
      if 0 < shadeIndexShaderFn numShades (g x y)
      then shades.getD (shadeIndexShaderFn numShades (g x y)).toNat ⟨0, 0, 0⟩
      else canvas p := by
  unfold drawCellB
  by_cases hidx : 0 < shadeIndexShaderFn numShades (g x y)
  · rw [if_pos hidx, if_pos hidx]
    exact if_pos h
  · rw [if_neg hidx, if_neg hidx]

theorem cellRect_unique_x {cw ch : ℕ} (hcw : 0 < cw) {x y x' y' : ℕ} {p : ℕ × ℕ}
    (h1 : cellRect cw ch x y p) (h2 : cellRect cw ch x' y' p) : x' = x := by
  obtain ⟨a1, a2, -, -⟩ := h1
  obtain ⟨b1, b2, -, -⟩ := h2
  by_contra hne
  rcases Nat.lt_or_ge x x' with hlt | hge
  · have hmul : (x + 1) * cw ≤ x' * cw := Nat.mul_le_mul_right cw (by omega)
    rw [Nat.succ_mul] at hmul
    omega
  · have hlt' : x' < x := by omega
    have hmul : (x' + 1) * cw ≤ x * cw := Nat.mul_le_mul_right cw (by omega)
    rw [Nat.succ_mul] at hmul
    omega

theorem cellRect_unique_y {cw ch : ℕ} (hch : 0 < ch) {x y x' y' : ℕ} {p : ℕ × ℕ}
    (h1 : cellRect cw ch x y p) (h2 : cellRect cw ch x' y' p) : y' = y := by
  obtain ⟨-, -, a3, a4⟩ := h1
  obtain ⟨-, -, b3, b4⟩ := h2
  by_contra hne
  rcases Nat.lt_or_ge y y' with hlt | hge
  · have hmul : (y + 1) * ch ≤ y' * ch := Nat.mul_le_mul_right ch (by omega)
    rw [Nat.succ_mul] at hmul
    omega
  · have hlt' : y' < y := by omega
    have hmul : (y' + 1) * ch ≤ y * ch := Nat.mul_le_mul_right ch (by omega)
    rw [Nat.succ_mul] at hmul
    omega

theorem foldRow_untouched (shades : List RGB) (numShades : ℤ) (cw ch : ℕ)
    (g : ℕ → ℕ → ℕ) (y : ℕ) (p : ℕ × ℕ) :
    ∀ xs : List ℕ, (∀ x ∈ xs, ¬ cellRect cw ch x y p) →
      ∀ canvas : ℕ × ℕ → RGB,
        (xs.foldl (fun c x => drawCellB shades numShades cw ch g y x c) canvas) p =
          canvas p := by
  intro xs
  induction xs with
  | nil => intro _ canvas; rfl
  | cons a xs ih =>
    intro hmiss canvas
    rw [List.foldl_cons, ih (fun x hx => hmiss x (List.mem_cons_of_mem a hx)),
      drawCell_not_rect shades numShades cw ch g y a canvas p
        (hmiss a (List.mem_cons_self a xs))]

theorem foldRow_hit (shades : List RGB) (numShades : ℤ) (cw ch : ℕ)
    (g : ℕ → ℕ → ℕ) (y : ℕ) (p : ℕ × ℕ) :
    ∀ xs : List ℕ, ∀ x : ℕ, x ∈ xs → cellRect cw ch x y p →
      (∀ x' ∈ xs, cellRect cw ch x' y p → x' = x) →
      ∀ canvas : ℕ × ℕ → RGB,
        (xs.foldl (fun c x => drawCellB shades numShades cw ch g y x c) canvas) p =
          if 0 < shadeIndexShaderFn numShades (g x y)
          then shades.getD (shadeIndexShaderFn numShades (g x y)).toNat ⟨0, 0, 0⟩
          else canvas p := by
  intro xs
  induction xs with
  | nil => intro x hx; cases hx
  | cons a xs ih =>
    intro x hmem hrect huniq canvas
    rw [List.foldl_cons]
    by_cases hra : cellRect cw ch a y p
    · have hax : a = x := huniq a (List.mem_cons_self a xs) hra
      subst hax
      by_cases hatail : a ∈ xs
      · rw [ih a hatail hrect
          (fun x' hx' hr => huniq x' (List.mem_cons_of_mem a hx') hr)]
        by_cases hidx : 0 < shadeIndexShaderFn numShades (g a y)
        · rw [if_pos hidx, if_pos hidx]
        · rw [if_neg hidx, if_neg hidx, drawCell_rect shades numShades cw ch g y a canvas p hra,
            if_neg hidx]
      · rw [foldRow_untouched shades numShades cw ch g y p xs
          (fun x' hx' hr =>
            hatail ((huniq x' (List.mem_cons_of_mem a hx') hr) ▸ hx'))]
        exact drawCell_rect shades numShades cw ch g y a canvas p hra
    · have hax : x ≠ a := fun hcontra => hra (hcontra ▸ hrect)
      have hmemtail : x ∈ xs := by
        rcases List.mem_cons.1 hmem with hcontra | hok
        · exact absurd hcontra hax
        · exact hok
      rw [ih x hmemtail hrect (fun x' hx' hr => huniq x' (List.mem_cons_of_mem a hx') hr),
        drawCell_not_rect shades numShades cw ch g y a canvas p hra]

theorem foldGrid_untouched (shades : List RGB) (numShades : ℤ) (w cw ch : ℕ)
    (g : ℕ → ℕ → ℕ) (p : ℕ × ℕ) :
    ∀ ys : List ℕ, (∀ y' ∈ ys, ∀ x' ∈ List.range w, ¬ cellRect cw ch x' y' p) →
      ∀ canvas : ℕ × ℕ → RGB,
        (ys.foldl (fun c y => (List.range w).foldl
          (fun c2 x => drawCellB shades numShades cw ch g y x c2) c) canvas) p =
          canvas p := by
  intro ys
  induction ys with
  | nil => intro _ canvas; rfl
  | cons b ys ih =>
    intro hmiss canvas
    rw [List.foldl_cons, ih (fun y' hy' => hmiss y' (List.mem_cons_of_mem b hy')),
      foldRow_untouched shades numShades cw ch g b p (List.range w)
        (hmiss b (List.mem_cons_self b ys)) canvas]

theorem foldGrid_hit (shades : List RGB) (numShades : ℤ) (w cw ch : ℕ)
    (g : ℕ → ℕ → ℕ) (p : ℕ × ℕ) :
    ∀ ys : List ℕ, ∀ x y : ℕ, y ∈ ys → x ∈ List.range w → cellRect cw ch x y p →
      (∀ x' ∈ List.range w, cellRect cw ch x' y p → x' = x) →
      (∀ y' ∈ ys, y' ≠ y → ∀ x' ∈ List.range w, ¬ cellRect cw ch x' y' p) →
      ∀ canvas : ℕ × ℕ → RGB,
        (ys.foldl (fun c y => (List.range w).foldl
          (fun c2 x => drawCellB shades numShades cw ch g y x c2) c) canvas) p =
          if 0 < shadeIndexShaderFn numShades (g x y)
          then shades.getD (shadeIndexShaderFn numShades (g x y)).toNat ⟨0, 0, 0⟩
          else canvas p := by
  intro ys
  induction ys with
  | nil => intro x y hy; cases hy
  | cons b ys ih =>
    intro x y hymem hxmem hrect huniqx hrows canvas
    rw [List.foldl_cons]
    by_cases hby : b = y
    · subst hby
      by_cases hbtail : b ∈ ys
      · rw [ih x b hbtail hxmem hrect huniqx
          (fun y' hy' => hrows y' (List.mem_cons_of_mem b hy'))]
        by_cases hidx : 0 < shadeIndexShaderFn numShades (g x b)
        · rw [if_pos hidx, if_pos hidx]
        · rw [if_neg hidx, if_neg hidx,
            foldRow_hit shades numShades cw ch g b p (List.range w) x hxmem hrect huniqx canvas,
            if_neg hidx]
      · rw [foldGrid_untouched shades numShades w cw ch g p ys
          (fun y' hy' x' hx' =>
            hrows y' (List.mem_cons_of_mem b hy')
              (fun he => hbtail (he ▸ hy')) x' hx')]
        exact foldRow_hit shades numShades cw ch g b p (List.range w) x hxmem hrect huniqx canvas
    · have hymem' : y ∈ ys := by
        rcases List.mem_cons.1 hymem with hcontra | hok
        · exact absurd hcontra.symm hby
        · exact hok
      rw [ih x y hymem' hxmem hrect huniqx
          (fun y' hy' => hrows y' (List.mem_cons_of_mem b hy')),
        foldRow_untouched shades numShades cw ch g b p (List.range w)
          (hrows b (List.mem_cons_self b ys) hby) canvas]

/-- C6: in the block variant, a pixel inside the cell rectangle of grid
cell `(x, y)` ends up exactly the background shade (ramp element 0) the
canvas was initialised with when the cell's mapped index is 0 (the cell is
never drawn), and exactly the ramp color at the mapped index when the index
is nonzero. -/
theorem claim_C6 (shades : List RGB) (N : ℤ) (w h cw ch : ℕ) (g : ℕ → ℕ → ℕ)
    (x y : ℕ) (p : ℕ × ℕ) (hN : 2 ≤ N) (hcw : 0 < cw) (hch : 0 < ch)
    (hx : x < w) (hy : y < h) (hp : cellRect cw ch x y p) :
    (shadeIndexShaderFn N (g x y) = 0 →
      renderBlock shades N w h cw ch g p = shades.getD 0 ⟨0, 0, 0⟩) ∧
    (shadeIndexShaderFn N (g x y) ≠ 0 →
      renderBlock shades N w h cw ch g p =
        shades.getD (shadeIndexShaderFn N (g x y)).toNat ⟨0, 0, 0⟩) := by
  have hkey : renderBlock shades N w h cw ch g p =
      if 0 < shadeIndexShaderFn N (g x y)
      then shades.getD (shadeIndexShaderFn N (g x y)).toNat ⟨0, 0, 0⟩
      else shades.getD 0 ⟨0, 0, 0⟩ := by
    unfold renderBlock
    exact foldGrid_hit shades N w cw ch g p (List.range h) x y
      (List.mem_range.2 hy) (List.mem_range.2 hx) hp
      (fun x' _ hr => cellRect_unique_x hcw hp hr)
      (fun y' _ hne x' _ hr => hne (cellRect_unique_y hch hp hr))
      (fun _ => shades.getD 0 ⟨0, 0, 0⟩)
  have hnonneg : 0 ≤ shadeIndexShaderFn N (g x y) := by
    rw [shadeIndexShaderFn_eq N (by omega) (g x y)]
    have := Int.ofNat_nonneg ((g x y) * N.toNat / 256)
    omega
  constructor
  · intro h0
    rw [hkey, if_neg (by omega)]
  · intro hne
    rw [hkey, if_pos (by omega)]

/-- Witness for C6: a 1x1 grid of 1x1-pixel cells with brightness 200 and
two shades; the single cell's index is nonzero, so pixel `(0, 0)` is the
ramp color at that index. -/
theorem claim_C6_witness :
    (2 : ℤ) ≤ 2 ∧ (0 : ℕ) < 1 ∧ (0 : ℕ) < 1 ∧ cellRect 1 1 0 0 (0, 0) ∧
    shadeIndexShaderFn 2 ((fun _ _ => (200 : ℕ)) 0 0) ≠ 0 ∧
    renderBlock [⟨1, 1, 1⟩, ⟨9, 9, 9⟩] 2 1 1 1 1 (fun _ _ => 200) (0, 0) =
      [(⟨1, 1, 1⟩ : RGB), ⟨9, 9, 9⟩].getD
        (shadeIndexShaderFn 2 ((fun _ _ => (200 : ℕ)) 0 0)).toNat ⟨0, 0, 0⟩ := by
  have hidx : shadeIndexShaderFn 2 ((fun _ _ => (200 : ℕ)) 0 0) ≠ 0 := by
    rw [shadeIndexShaderFn_eq 2 (by decide) ((fun _ _ => (200 : ℕ)) 0 0)]
    decide
  exact ⟨by decide, by decide, by decide, by decide, hidx,
    (claim_C6 [⟨1, 1, 1⟩, ⟨9, 9, 9⟩] 2 1 1 1 1 (fun _ _ => 200) 0 0 (0, 0)
      (by decide) (by decide) (by decide) (by decide) (by decide) (by decide)).2 hidx⟩

/-! ### Hex color parsing (claim C10) -/

theorem hexDigitVal_le {ch : Char} {d : ℕ} (h : hexDigitVal ch = some d) : d ≤ 15 := by
  unfold hexDigitVal at h
  split at h
  · simp only [Option.some.injEq] at h
    omega
  · split at h
    · simp only [Option.some.injEq] at h
      omega
    · split at h
      · simp only [Option.some.injEq] at h
        omega
      · exact Option.noConfusion h

theorem hexDigitVal_toNat_ge {ch : Char} {d : ℕ} (h : hexDigitVal ch = some d) :
    48 ≤ ch.toNat := by
  unfold hexDigitVal at h
  split at h
  · omega
  · split at h
    · omega
    · split at h
      · omega
      · exact Option.noConfusion h

theorem hexDigit_ne {ch : Char} {d : ℕ} (h : hexDigitVal ch = some d) :
    ch ≠ '#' ∧ isPySpace ch = false ∧ ch ≠ '+' ∧ ch ≠ '-' := by
  have hge := hexDigitVal_toNat_ge h
  have h1 : ch ≠ ' ' := by rintro rfl; revert hge; decide
  have h2 : ch ≠ '\t' := by rintro rfl; revert hge; decide
  have h3 : ch ≠ '\n' := by rintro rfl; revert hge; decide
  have h4 : ch ≠ '\x0d' := by rintro rfl; revert hge; decide
  have h5 : ch ≠ '\x0b' := by rintro rfl; revert hge; decide
  have h6 : ch ≠ '\x0c' := by rintro rfl; revert hge; decide
  refine ⟨?_, ?_, ?_, ?_⟩
  · rintro rfl; revert hge; decide
  · unfold isPySpace
    rw [decide_eq_false h1, decide_eq_false h2, decide_eq_false h3,
      decide_eq_false h4, decide_eq_false h5, decide_eq_false h6]
    rfl
  · rintro rfl; revert hge; decide
  · rintro rfl; revert hge; decide

theorem hexDigitsVal_pair {c1 c2 : Char} {d1 d2 : ℕ}
    (h1 : hexDigitVal c1 = some d1) (h2 : hexDigitVal c2 = some d2) :
    hexDigitsVal [c1, c2] = some (d1 * 16 + d2) := by
  simp [hexDigitsVal, h1, h2, Option.bind]

theorem pyIntHex16_pair {c1 c2 : Char} {d1 d2 : ℕ}
    (h1 : hexDigitVal c1 = some d1) (h2 : hexDigitVal c2 = some d2) :
    pyIntHex16 [c1, c2] = some ((d1 * 16 + d2 : ℕ) : ℤ) := by
  obtain ⟨-, hsp1, hplus1, hminus1⟩ := hexDigit_ne h1
  obtain ⟨-, hsp2, -, -⟩ := hexDigit_ne h2
  unfold pyIntHex16
  have hstrip : ((([c1, c2].dropWhile isPySpace).reverse.dropWhile isPySpace).reverse)
      = [c1, c2] := by
    simp [List.dropWhile_cons, hsp1, hsp2]
  rw [hstrip]
  dsimp only
  split
  · rename_i heq
    rw [List.cons.injEq] at heq
    exact absurd heq.1 hplus1
  · rename_i heq
    rw [List.cons.injEq] at heq
    exact absurd heq.1 hminus1
  · rw [hexDigitsVal_pair h1 h2]
    rfl

theorem list_len6 {α : Type} {l : List α} (h : l.length = 6) :
    ∃ a b c d e f, l = [a, b, c, d, e, f] := by
  rcases l with _ | ⟨a, l⟩
  · simp at h
  rcases l with _ | ⟨b, l⟩
  · simp at h
  rcases l with _ | ⟨c, l⟩
  · simp at h
  rcases l with _ | ⟨d, l⟩
  · simp at h
  rcases l with _ | ⟨e, l⟩
  · simp at h
  rcases l with _ | ⟨f, l⟩
  · simp at h
  rcases l with _ | ⟨g2, l⟩
  · exact ⟨a, b, c, d, e, f, rfl⟩
  · simp only [List.length_cons] at h
    omega

/-- C10: `hex_to_rgb` accepts every six-hex-digit string, returning three
channels in `[0, 255]`; leading `#` characters are all stripped, so
prepending any number of them never changes the result; any input whose
`#`-stripped form does not have length 6 is rejected with the
`ValueError` message; and the six-character input `-fffff`, which contains
a sign, is accepted with a channel value outside `[0, 255]`. -/
theorem claim_C10 :
    (∀ l : List Char, l.length = 6 → (∀ ch ∈ l, (hexDigitVal ch).isSome) →
      ∃ c : RGB, hex_to_rgb (String.mk l) = .ok c ∧ InRange c) ∧
    (∀ (s : String) (k : ℕ),
      hex_to_rgb (String.mk (List.replicate k '#' ++ s.toList)) = hex_to_rgb s) ∧
    (∀ s : String, (s.toList.dropWhile (· = '#')).length ≠ 6 →
      hex_to_rgb s = .error "Invalid hex color format. Use #RRGGBB.") ∧
    (hex_to_rgb "-fffff" = .ok ⟨-15, 255, 255⟩ ∧ ¬ InRange ⟨-15, 255, 255⟩) := by
  refine ⟨?_, ?_, ?_, rfl, by decide⟩
  · intro l hlen hdig
    obtain ⟨c1, c2, c3, c4, c5, c6, rfl⟩ := list_len6 hlen
    obtain ⟨d1, hd1⟩ := Option.isSome_iff_exists.1 (hdig c1 (by simp))
    obtain ⟨d2, hd2⟩ := Option.isSome_iff_exists.1 (hdig c2 (by simp))
    obtain ⟨d3, hd3⟩ := Option.isSome_iff_exists.1 (hdig c3 (by simp))
    obtain ⟨d4, hd4⟩ := Option.isSome_iff_exists.1 (hdig c4 (by simp))
    obtain ⟨d5, hd5⟩ := Option.isSome_iff_exists.1 (hdig c5 (by simp))
    obtain ⟨d6, hd6⟩ := Option.isSome_iff_exists.1 (hdig c6 (by simp))
    unfold hex_to_rgb
    have htl : (String.mk [c1, c2, c3, c4, c5, c6]).toList = [c1, c2, c3, c4, c5, c6] := rfl
    rw [htl]
    have hdw : ([c1, c2, c3, c4, c5, c6].dropWhile (· = '#')) = [c1, c2, c3, c4, c5, c6] := by
      rw [List.dropWhile_cons, if_neg (by simp [(hexDigit_ne hd1).1])]
    rw [hdw]
    rw [if_neg (by simp)]
    rw [show ([c1, c2, c3, c4, c5, c6].take 2) = [c1, c2] from rfl,
      show (([c1, c2, c3, c4, c5, c6].drop 2).take 2) = [c3, c4] from rfl,
      show (([c1, c2, c3, c4, c5, c6].drop 4).take 2) = [c5, c6] from rfl,
      pyIntHex16_pair hd1 hd2, pyIntHex16_pair hd3 hd4, pyIntHex16_pair hd5 hd6]
    refine ⟨⟨((d1 * 16 + d2 : ℕ) : ℤ), ((d3 * 16 + d4 : ℕ) : ℤ), ((d5 * 16 + d6 : ℕ) : ℤ)⟩,
      rfl, ?_⟩
    have b1 := hexDigitVal_le hd1
    have b2 := hexDigitVal_le hd2
    have b3 := hexDigitVal_le hd3
    have b4 := hexDigitVal_le hd4
    have b5 := hexDigitVal_le hd5
    have b6 := hexDigitVal_le hd6
    unfold InRange
    dsimp only
    refine ⟨?_, ?_, ?_, ?_, ?_, ?_⟩ <;> omega
  · intro s k
    unfold hex_to_rgb
    have hrep : (String.mk (List.replicate k '#' ++ s.toList)).toList.dropWhile (· = '#')
        = s.toList.dropWhile (· = '#') := by
      show (List.replicate k '#' ++ s.toList).dropWhile (· = '#')
          = s.toList.dropWhile (· = '#')
      induction k with
      | zero => simp
      | succ n ih =>
        rw [List.replicate_succ, List.cons_append, List.dropWhile_cons]
        rw [if_pos (by simp)]
        exact ih
    rw [hrep]
  · intro s hne
    unfold hex_to_rgb
    rw [if_pos hne]

/-- Witness for C10 at the six-hex-digit input `44ccaa`. -/
theorem claim_C10_witness :
    (['4', '4', 'c', 'c', 'a', 'a'].length = 6) ∧
    (∀ ch ∈ ['4', '4', 'c', 'c', 'a', 'a'], (hexDigitVal ch).isSome) ∧
    (∃ c : RGB, hex_to_rgb (String.mk ['4', '4', 'c', 'c', 'a', 'a']) = .ok c ∧ InRange c) :=
  ⟨by decide, by decide, claim_C10.1 _ (by decide) (by decide)⟩

